import Mathlib

/-!
# Verification of serial-sensor-hub against its specification

Shallow embedding of the Go sources of `samblenny/serial-sensor-hub`.

Modelling conventions:
* `time.Time` / `time.Duration` values are modelled as `ℤ` nanoseconds
  (Go durations are int64 nanosecond counts).
* `float64` values are modelled as `ℚ`.  IEEE-754 rounding, overflow to
  infinity, `Inf`/`NaN` special values and `strconv`'s range errors are
  outside the model; all arithmetic is exact rational arithmetic.
* Go maps keyed by strings are modelled as association lists
  (`List (String × _)`) with in-place update; pointer mutation of a
  `*ReportHistory` becomes functional update of the list entry.
* Channels sends are modelled as values returned from step functions
  (`Option` of the message sent on each channel).
-/

/-- Nanoseconds in `24 * time.Hour` (`reports.go:35`). -/
def retentionWindow : ℤ := 24 * 60 * 60 * 1000000000

/-- One parsed sensor report from a node (`reports.go:10-14`). -/
structure Report where
  Timestamp : ℤ
  TempF : ℚ
  BatteryV : ℚ
deriving DecidableEq, Repr

/-- 24-hour rolling history of reports for one sensor node
(`reports.go:17-21`). -/
structure ReportHistory where
  Reports : List Report
  MinTempF : ℚ
  MaxTempF : ℚ
deriving DecidableEq, Repr

/-- The single loop of `reports.go:52-59` that updates the running min and
max temperature, applied to one further report. -/
def minmaxStep (p : ℚ × ℚ) (r : Report) : ℚ × ℚ :=
  (if r.TempF < p.1 then r.TempF else p.1,
   if p.2 < r.TempF then r.TempF else p.2)

/-- The prune loop of `reports.go:36-42`: walk the list from the front
while `Timestamp.Before(cutoff)` holds and slice off that prefix, which is
exactly `List.dropWhile` (the `if i > 0` guard only avoids a no-op slice). -/
def pruneReports (l : List Report) (cutoff : ℤ) : List Report :=
  l.dropWhile (fun r => decide (r.Timestamp < cutoff))

/-- `(*ReportHistory).Add` (`reports.go:25-62`).  The Go method reads the
clock itself (`time.Now()` at line 35); that instant is passed here as the
extra parameter `now`.  Lines 44-61 recompute min/max over the pruned
list, starting both at `Reports[0].TempF` and folding over the rest. -/
def ReportHistory.Add (h : ReportHistory) (timestamp : ℤ)
    (batteryV tempF : ℚ) (now : ℤ) : ReportHistory :=
  match pruneReports (h.Reports ++ [⟨timestamp, tempF, batteryV⟩])
      (now - retentionWindow) with
  | [] => ⟨[], 0, 0⟩
  | r0 :: rest =>
      ⟨r0 :: rest, (rest.foldl minmaxStep (r0.TempF, r0.TempF)).1,
       (rest.foldl minmaxStep (r0.TempF, r0.TempF)).2⟩

example :
    ReportHistory.Add ⟨[], 0, 0⟩ 20 0 5 0 =
      ⟨[⟨20, 5, 0⟩], 5, 5⟩ := by decide

example :
    ReportHistory.Add ⟨[], 0, 0⟩ 0 0 5 (retentionWindow + 10) =
      ⟨[], 0, 0⟩ := by decide

/-- The report list of the history produced by `Add` is exactly the pruned
appended list, in every branch of the min/max recomputation. -/
lemma reportHistory_add_reports (h : ReportHistory) (ts now : ℤ)
    (bv tf : ℚ) :
    (h.Add ts bv tf now).Reports =
      pruneReports (h.Reports ++ [⟨ts, tf, bv⟩]) (now - retentionWindow) := by
  unfold ReportHistory.Add
  rcases hp : pruneReports (h.Reports ++ [⟨ts, tf, bv⟩])
      (now - retentionWindow) with _ | ⟨r0, rest⟩ <;> simp [hp]

/-- Elements surviving `dropWhile` on a list that is sorted by timestamp
are all at or after the cutoff. -/
lemma pruneReports_sorted_window (c : ℤ) (l : List Report)
    (hs : l.Pairwise (fun a b => a.Timestamp ≤ b.Timestamp)) :
    ∀ r ∈ pruneReports l c, c ≤ r.Timestamp := by
  induction l with
  | nil => simp [pruneReports]
  | cons a t ih =>
      rcases List.pairwise_cons.mp hs with ⟨hat, ht⟩
      by_cases hac : a.Timestamp < c
      · simpa [pruneReports, List.dropWhile_cons, hac] using ih ht
      · intro r hr
        simp only [pruneReports, List.dropWhile_cons, decide_eq_true_eq,
          if_neg hac] at hr
        rcases List.mem_cons.mp hr with rfl | hrt
        · exact not_lt.mp hac
        · exact le_trans (not_lt.mp hac) (hat r hrt)

/-- `dropWhile` keeps every element that sits behind some element failing
the predicate. -/
lemma mem_dropWhile_of_earlier {α : Type} (p : α → Bool) (l₁ l₂ : List α)
    (a b : α) (ha : p a = false) (hb : b ∈ l₂) :
    b ∈ (l₁ ++ a :: l₂).dropWhile p := by
  induction l₁ with
  | nil => simp [List.dropWhile_cons, ha, hb]
  | cons c t ih =>
      by_cases hc : p c
      · simpa [List.dropWhile_cons, hc] using ih
      · simp [List.dropWhile_cons, hc, hb]

/-- If the final element fails the predicate, `dropWhile` keeps it as the
final element. -/
lemma dropWhile_append_last {α : Type} (p : α → Bool) (l : List α) (r : α)
    (hr : p r = false) :
    ∃ l₁, (l ++ [r]).dropWhile p = l₁ ++ [r] := by
  induction l with
  | nil => exact ⟨[], by simp [List.dropWhile_cons, hr]⟩
  | cons c t ih =>
      by_cases hc : p c
      · simpa [List.dropWhile_cons, hc] using ih
      · exact ⟨c :: t, by simp [List.dropWhile_cons, hc]⟩

/-- Specification of the single-pass min/max loop of `reports.go:52-59`,
for an arbitrary starting accumulator. -/
lemma foldl_minmax_spec (l : List Report) (m M : ℚ) :
    ((l.foldl minmaxStep (m, M)).1 = m ∨
        ∃ r ∈ l, (l.foldl minmaxStep (m, M)).1 = r.TempF) ∧
    (l.foldl minmaxStep (m, M)).1 ≤ m ∧
    (∀ r ∈ l, (l.foldl minmaxStep (m, M)).1 ≤ r.TempF) ∧
    ((l.foldl minmaxStep (m, M)).2 = M ∨
        ∃ r ∈ l, (l.foldl minmaxStep (m, M)).2 = r.TempF) ∧
    M ≤ (l.foldl minmaxStep (m, M)).2 ∧
    (∀ r ∈ l, r.TempF ≤ (l.foldl minmaxStep (m, M)).2) := by
  induction l generalizing m M with
  | nil => simp
  | cons a t ih =>
      obtain ⟨hm1, hm2, hm3, hM1, hM2, hM3⟩ :=
        ih (minmaxStep (m, M) a).1 (minmaxStep (m, M) a).2
      have hstep1 : (minmaxStep (m, M) a).1 ≤ m ∧
          (minmaxStep (m, M) a).1 ≤ a.TempF ∧
          ((minmaxStep (m, M) a).1 = m ∨ (minmaxStep (m, M) a).1 = a.TempF) := by
        simp only [minmaxStep]
        split <;> (simp_all; try linarith)
      have hstep2 : M ≤ (minmaxStep (m, M) a).2 ∧
          a.TempF ≤ (minmaxStep (m, M) a).2 ∧
          ((minmaxStep (m, M) a).2 = M ∨ (minmaxStep (m, M) a).2 = a.TempF) := by
        simp only [minmaxStep]
        split <;> (simp_all; try linarith)
      simp only [List.foldl_cons]
      refine ⟨?_, ?_, ?_, ?_, ?_, ?_⟩
      · rcases hm1 with h1 | ⟨r, hr, hre⟩
        · rcases hstep1.2.2 with h2 | h2
          · exact Or.inl (h1.trans h2)
          · exact Or.inr ⟨a, List.mem_cons_self a t, h1.trans h2⟩
        · exact Or.inr ⟨r, List.mem_cons_of_mem a hr, hre⟩
      · exact hm2.trans hstep1.1
      · intro r hr
        rcases List.mem_cons.mp hr with rfl | hrt
        · exact hm2.trans hstep1.2.1
        · exact hm3 r hrt
      · rcases hM1 with h1 | ⟨r, hr, hre⟩
        · rcases hstep2.2.2 with h2 | h2
          · exact Or.inl (h1.trans h2)
          · exact Or.inr ⟨a, List.mem_cons_self a t, h1.trans h2⟩
        · exact Or.inr ⟨r, List.mem_cons_of_mem a hr, hre⟩
      · exact hstep2.1.trans hM2
      · intro r hr
        rcases List.mem_cons.mp hr with rfl | hrt
        · exact hstep2.2.1.trans hM2
        · exact hM3 r hrt

/-- C1 (counterexample): the claim quantifies over `Add` calls with
arbitrary timestamps, but pruning only removes a contiguous prefix.
Starting from an empty history, `Add` a report stamped 20ns (pruning
instant 0), then `Add` a report stamped 0ns at pruning instant
`retentionWindow + 10`: the second report is retained even though its
timestamp 0 is older than the cutoff 10. -/
theorem add_window_cex :
    ∃ r ∈ (ReportHistory.Add (ReportHistory.Add ⟨[], 0, 0⟩ 20 0 0 0)
        0 0 0 (retentionWindow + 10)).Reports,
      r.Timestamp < (retentionWindow + 10) - retentionWindow := by
  refine ⟨⟨0, 0, 0⟩, ?_, by decide⟩
  decide

/-- C1 (amended): if the history's stored timestamps are non-decreasing
and the added report's timestamp is at least all of them — which holds for
the pipeline, where every report is stamped with the current time — then
immediately after the pruning step inside `Add`, every retained report's
timestamp is at or after the pruning instant minus 24 hours. -/
theorem add_window_of_monotone (h : ReportHistory) (ts now : ℤ)
    (bv tf : ℚ)
    (hsort : h.Reports.Pairwise (fun a b => a.Timestamp ≤ b.Timestamp))
    (hlast : ∀ r ∈ h.Reports, r.Timestamp ≤ ts) :
    ∀ r ∈ (h.Add ts bv tf now).Reports,
      now - retentionWindow ≤ r.Timestamp := by
  rw [reportHistory_add_reports]
  apply pruneReports_sorted_window
  rw [List.pairwise_append]
  refine ⟨hsort, List.pairwise_singleton _ _, ?_⟩
  intro a ha b hb
  rw [List.mem_singleton] at hb
  subst hb
  exact hlast a ha

/-- Witness for C1 (amended) at a concrete sorted history. -/
theorem add_window_of_monotone_witness :
    (20 : ℤ) - retentionWindow ≤ 10 :=
  add_window_of_monotone ⟨[⟨5, 1, 1⟩], 1, 1⟩ 10 20 1 1 (by decide)
    (by decide) ⟨10, 1, 1⟩ (by decide)

/-- C5: after every `Add`, an empty retained list resets min and max to
zero; a non-empty retained list has `MinTempF` equal to the least and
`MaxTempF` equal to the greatest `TempF` among retained reports (attained
and bounding), hence `MinTempF ≤ MaxTempF`. -/
theorem add_minmax (h : ReportHistory) (ts now : ℤ) (bv tf : ℚ) :
    ((h.Add ts bv tf now).Reports = [] →
        (h.Add ts bv tf now).MinTempF = 0 ∧
        (h.Add ts bv tf now).MaxTempF = 0) ∧
    ((h.Add ts bv tf now).Reports ≠ [] →
        (∃ r ∈ (h.Add ts bv tf now).Reports,
            (h.Add ts bv tf now).MinTempF = r.TempF) ∧
        (∀ r ∈ (h.Add ts bv tf now).Reports,
            (h.Add ts bv tf now).MinTempF ≤ r.TempF) ∧
        (∃ r ∈ (h.Add ts bv tf now).Reports,
            (h.Add ts bv tf now).MaxTempF = r.TempF) ∧
        (∀ r ∈ (h.Add ts bv tf now).Reports,
            r.TempF ≤ (h.Add ts bv tf now).MaxTempF) ∧
        (h.Add ts bv tf now).MinTempF ≤ (h.Add ts bv tf now).MaxTempF) := by
  rcases hp : pruneReports (h.Reports ++ [⟨ts, tf, bv⟩])
      (now - retentionWindow) with _ | ⟨r0, rest⟩
  · constructor
    · intro _
      constructor <;> simp [ReportHistory.Add, hp]
    · intro hne
      exact absurd (by simp [ReportHistory.Add, hp]) hne
  · have hrep : (h.Add ts bv tf now).Reports = r0 :: rest := by
      simp [ReportHistory.Add, hp]
    have hmin : (h.Add ts bv tf now).MinTempF =
        (rest.foldl minmaxStep (r0.TempF, r0.TempF)).1 := by
      simp [ReportHistory.Add, hp]
    have hmax : (h.Add ts bv tf now).MaxTempF =
        (rest.foldl minmaxStep (r0.TempF, r0.TempF)).2 := by
      simp [ReportHistory.Add, hp]
    rw [hrep, hmin, hmax]
    constructor
    · intro hfalse
      exact absurd hfalse (by simp)
    intro _
    obtain ⟨hm1, hm2, hm3, hM1, hM2, hM3⟩ :=
      foldl_minmax_spec rest r0.TempF r0.TempF
    refine ⟨?_, ?_, ?_, ?_, ?_⟩
    · rcases hm1 with h1 | ⟨r, hr, hre⟩
      · exact ⟨r0, List.mem_cons_self r0 rest, h1⟩
      · exact ⟨r, List.mem_cons_of_mem r0 hr, hre⟩
    · intro r hr
      rcases List.mem_cons.mp hr with rfl | hrt
      · exact hm2
      · exact hm3 r hrt
    · rcases hM1 with h1 | ⟨r, hr, hre⟩
      · exact ⟨r0, List.mem_cons_self r0 rest, h1⟩
      · exact ⟨r, List.mem_cons_of_mem r0 hr, hre⟩
    · intro r hr
      rcases List.mem_cons.mp hr with rfl | hrt
      · exact hM2
      · exact hM3 r hrt
    · exact hm2.trans hM2

/-- Witness for C5: one `Add` that empties the history (report older than
the window) and one that retains data. -/
theorem add_minmax_witness :
    ((ReportHistory.Add ⟨[], 0, 0⟩ 0 0 5 (retentionWindow + 10)).MinTempF = 0 ∧
     (ReportHistory.Add ⟨[], 0, 0⟩ 0 0 5 (retentionWindow + 10)).MaxTempF = 0) ∧
    (ReportHistory.Add ⟨[⟨5, 7, 1⟩], 7, 7⟩ 10 1 3 20).MinTempF ≤
      (ReportHistory.Add ⟨[⟨5, 7, 1⟩], 7, 7⟩ 10 1 3 20).MaxTempF :=
  ⟨(add_minmax ⟨[], 0, 0⟩ 0 (retentionWindow + 10) 0 5).1 (by decide),
   ((add_minmax ⟨[⟨5, 7, 1⟩], 7, 7⟩ 10 20 1 3).2 (by decide)).2.2.2.2⟩

/-- C10: pruning inside `Add` removes only a contiguous prefix of the
appended report list: the retained reports are a suffix of the pre-prune
sequence in order; any report behind a within-window report is retained
even if it is itself older than the cutoff; and when the added report's
timestamp is within the window, the history ends non-empty with the added
report as its last element. -/
theorem add_prune_structure (h : ReportHistory) (ts now : ℤ)
    (bv tf : ℚ) :
    ((h.Add ts bv tf now).Reports).IsSuffix
      (h.Reports ++ [⟨ts, tf, bv⟩]) ∧
    (∀ (l₁ l₂ : List Report) (a b : Report),
        h.Reports ++ [⟨ts, tf, bv⟩] = l₁ ++ a :: l₂ → b ∈ l₂ →
        ¬ a.Timestamp < now - retentionWindow →
        b ∈ (h.Add ts bv tf now).Reports) ∧
    (¬ ts < now - retentionWindow →
        (h.Add ts bv tf now).Reports ≠ [] ∧
        (h.Add ts bv tf now).Reports.getLast? = some ⟨ts, tf, bv⟩) := by
  rw [reportHistory_add_reports]
  refine ⟨?_, ?_, ?_⟩
  · rw [pruneReports]
    exact ⟨_, List.takeWhile_append_dropWhile _ _⟩
  · intro l₁ l₂ a b heq hb ha
    rw [pruneReports, heq]
    exact mem_dropWhile_of_earlier _ l₁ l₂ a b (by simpa using ha) hb
  · intro hts
    obtain ⟨l₁, hl₁⟩ := dropWhile_append_last
      (fun r => decide (r.Timestamp < now - retentionWindow))
      h.Reports ⟨ts, tf, bv⟩ (by simpa using hts)
    rw [pruneReports, hl₁]
    exact ⟨by simp, by simp⟩

/-- Witness for C10 at a concrete history: an out-of-window report behind
an in-window one is retained, and the added report ends up last. -/
theorem add_prune_structure_witness :
    ((ReportHistory.Add ⟨[⟨20, 1, 1⟩], 1, 1⟩ 0 1 1
        (retentionWindow + 10)).Reports).IsSuffix
      ([⟨20, 1, 1⟩] ++ [⟨0, 1, 1⟩]) ∧
    (⟨0, 1, 1⟩ : Report) ∈
      (ReportHistory.Add ⟨[⟨20, 1, 1⟩], 1, 1⟩ 0 1 1
        (retentionWindow + 10)).Reports ∧
    (ReportHistory.Add ⟨[], 0, 0⟩ 50 1 1 20).Reports.getLast? =
      some ⟨50, 1, 1⟩ :=
  ⟨(add_prune_structure ⟨[⟨20, 1, 1⟩], 1, 1⟩ 0 (retentionWindow + 10) 1 1).1,
   (add_prune_structure ⟨[⟨20, 1, 1⟩], 1, 1⟩ 0 (retentionWindow + 10) 1 1).2.1
     [] [⟨0, 1, 1⟩] ⟨20, 1, 1⟩ ⟨0, 1, 1⟩ rfl (by decide) (by decide),
   ((add_prune_structure ⟨[], 0, 0⟩ 50 20 1 1).2.2 (by decide)).2⟩

/-! ## IRC bot (`irc.go`) -/

/-- Remote server configuration consumed by `IRCBot` (`irc.go:36`, fields
`cfg.Server`, `cfg.Nick`, `cfg.Channel`).  Modelled from the spec: the
`ServerConfig` declaration itself lives in the configuration-loading file,
which is outside the provided sources; the spec says the configuration
collaborator "supplies remote server address, identity (nick), and channel
name" and that the core treats them as immutable. -/
structure ServerConfig where
  Server : String
  Nick : String
  Channel : String
deriving DecidableEq, Repr

/-- Backoff seed, `baseDelay := 3 * time.Second` (`irc.go:46`), in
seconds. -/
def baseDelay : ℚ := 3

/-- Backoff cap, `maxDelay := 10 * time.Minute` (`irc.go:47`), in
seconds. -/
def maxDelay : ℚ := 600

/-- `ircNextBackoff` (`irc.go:26-33`).  `f` stands for the value drawn by
`rand.Float64()`, so `0 ≤ f < 1`; the Go expression
`delay += time.Duration(float64(delay) * (0.5 + rand.Float64()))` is
modelled as exact rational arithmetic (the truncation of the float product
to whole nanoseconds is ignored). -/
def ircNextBackoff (delay mx f : ℚ) : ℚ :=
  let d := delay + delay * (1/2 + f)
  if d ≤ mx then d else mx

/-- Characters matched by `\s` in Go's regexp package:
`[\t\n\f\r ]`. -/
def goSpace (c : Char) : Bool :=
  c = ' ' || c = '\t' || c = '\n' || c = '\x0c' || c = '\r'

/-- `ircLineRE` (`irc.go:38-41`), the regex
`^((:\S+)\s+)?(\S+)\s*(.*)` applied by `FindStringSubmatch`
(`irc.go:152`), returning `(matches[2], matches[3], matches[4])` =
(optional sender prefix, command, params).  The optional prefix group only
participates when the line's first token starts with `:`, has at least one
character after it, and is followed by whitespace and a further command
token; otherwise the engine backtracks and the first token becomes the
command.  `none` corresponds to `matches == nil` (empty line or line
starting with whitespace), which makes the input loop skip the line. -/
def ircParseLine (line : String) : Option (String × String × String) :=
  match line.data with
  | [] => none
  | c :: _ =>
    if goSpace c then none
    else
      let cs := line.data
      let t1 := cs.takeWhile (fun x => !goSpace x)
      let r1 := cs.drop t1.length
      match t1, r1 with
      | ':' :: _ :: _, _ :: _ =>
          let r2 := r1.dropWhile goSpace
          match r2 with
          | [] => some ("", ⟨t1⟩, "")
          | _ :: _ =>
              let cmd := r2.takeWhile (fun x => !goSpace x)
              let r3 := (r2.drop cmd.length).dropWhile goSpace
              some (⟨t1⟩, ⟨cmd⟩, ⟨r3⟩)
      | _, _ => some ("", ⟨t1⟩, ⟨r1.dropWhile goSpace⟩)

example : ircParseLine ":irc.x 001 bot :Welcome" =
    some (":irc.x", "001", "bot :Welcome") := by decide

example : ircParseLine "PING :abc" = some ("", "PING", ":abc") := by
  decide

example : ircParseLine "" = none := by decide

/-- The numeric commands silently ignored by the `switch` in
`irc.go:166-179`. -/
def ignoredNumerics : List String :=
  ["002", "003", "004", "005", "250", "251", "252", "254", "255",
   "265", "266", "333", "353", "366"]

/-- Connection-session bookkeeping: `connDelay` lives across reconnect
attempts (`irc.go:48`), while `registered` and `joined` are declared fresh
for each connected session (`irc.go:124-125`). -/
structure IrcState where
  connDelay : ℚ
  registered : Bool
  joined : Bool
deriving DecidableEq, Repr

/-- One event arriving at the `select` of the connected input loop
(`irc.go:129`): a message from the outbound channel (with the success of
the subsequent `ircSend`), a line from the server, or closure of the
reader channel.  The rational carried by `serverLine` is the
`rand.Float64()` draw consumed if the line turns out to be a 433. -/
inductive IrcEvent where
  | outbound (msg : String) (sendOk : Bool)
  | serverLine (line : String) (f : ℚ)
  | chanClosed
deriving DecidableEq, Repr

/-- One iteration of the connected input loop (`irc.go:126-216`): returns
the updated state, the transport writes performed, and whether control
jumps back to `ConnectLoop`.  Logging is ignored; the `ctx.Done` arm
(shutdown) terminates the whole bot and is not an input-loop step. -/
def ircInputStep (cfg : ServerConfig) (st : IrcState) :
    IrcEvent → IrcState × List String × Bool
  | .outbound msg sendOk =>
      if st.registered && st.joined then
        (st, ["TOPIC " ++ cfg.Channel ++ " :" ++ msg], !sendOk)
      else
        (st, [], false)
  | .chanClosed => (st, [], true)
  | .serverLine line f =>
      match ircParseLine line with
      | none => (st, [], false)
      | some (pfx, command, params) =>
          if command = "001" then
            ({ st with registered := true }, [], false)
          else if command ∈ ignoredNumerics then (st, [], false)
          else if command = "433" then
            ({ st with connDelay := ircNextBackoff st.connDelay maxDelay f },
             [], true)
          else if command = "442" then
            (st, [], (cfg.Nick ++ " " ++ cfg.Channel).isPrefixOf params)
          else if command = "JOIN" then
            (if (":" ++ cfg.Nick ++ "!").isPrefixOf pfx &&
                (":" ++ cfg.Channel).isPrefixOf params then
               { st with joined := true }
             else st, [], false)
          else if command = "PING" then
            (st, ["PONG " ++ params], false)
          else (st, [], false)

/-- Run the connected input loop over a list of events, stopping when a
step jumps back to `ConnectLoop`. -/
def ircRunSession (cfg : ServerConfig) :
    IrcState → List IrcEvent → IrcState
  | st, [] => st
  | st, ev :: rest =>
      match ircInputStep cfg st ev with
      | (st2, _, true) => st2
      | (st2, _, false) => ircRunSession cfg st2 rest

/-- The observable outcome of one iteration of `ConnectLoop`
(`irc.go:57-217`): either `net.Dial` fails (`irc.go:78-85`, with the
`rand.Float64()` draw `f`), or it succeeds but one of the three
registration sends fails (`irc.go:90-98`), or it succeeds and the
connected input loop processes `evs`.  In the latter two cases
`connDelay = baseDelay` was set at `irc.go:86`, and `registered`/`joined`
start out false (`irc.go:124-125`). -/
inductive IterOutcome where
  | dialFail (f : ℚ)
  | regSendFail
  | session (evs : List IrcEvent)

/-- The state at the end of one `ConnectLoop` iteration that started with
backoff delay `d`. -/
def ircIterate (cfg : ServerConfig) (d : ℚ) : IterOutcome → IrcState
  | .dialFail f => ⟨ircNextBackoff d maxDelay f, false, false⟩
  | .regSendFail => ⟨baseDelay, false, false⟩
  | .session evs => ircRunSession cfg ⟨baseDelay, false, false⟩ evs

/-- C4: for a positive current delay not above the ceiling and any random
draw `f ∈ [0,1)`, `ircNextBackoff` returns `d·(3/2+f)` — which lies in
`[1.5·d, 2.5·d)` — unless that exceeds the 10-minute ceiling, in which
case it returns exactly the ceiling; in both cases the result is ≥ the
current delay and ≤ the ceiling, giving backoff monotonicity across
consecutive failed attempts. -/
theorem ircNextBackoff_spec (d f : ℚ) (hd : 0 < d) (hdm : d ≤ maxDelay)
    (hf0 : 0 ≤ f) (hf1 : f < 1) :
    (d * (3/2 + f) ≤ maxDelay →
        ircNextBackoff d maxDelay f = d * (3/2 + f) ∧
        3/2 * d ≤ ircNextBackoff d maxDelay f ∧
        ircNextBackoff d maxDelay f < 5/2 * d) ∧
    (maxDelay < d * (3/2 + f) → ircNextBackoff d maxDelay f = maxDelay) ∧
    d ≤ ircNextBackoff d maxDelay f ∧
    ircNextBackoff d maxDelay f ≤ maxDelay := by
  have key : d + d * (1/2 + f) = d * (3/2 + f) := by ring
  simp only [ircNextBackoff]
  by_cases hle : d + d * (1/2 + f) ≤ maxDelay
  · rw [if_pos hle, key]
    refine ⟨fun _ => ⟨rfl, by nlinarith, by nlinarith⟩,
      fun hgt => absurd (key ▸ hle) (not_le.mpr hgt), by nlinarith,
      key ▸ hle⟩
  · rw [if_neg hle]
    exact ⟨fun hgt => absurd (key ▸ hgt) hle, fun _ => rfl, hdm, le_refl _⟩

/-- Witness for C4 at `d = 3`, `f = 1/2`. -/
theorem ircNextBackoff_spec_witness :
    (3 : ℚ) ≤ ircNextBackoff 3 maxDelay (1/2) ∧
    ircNextBackoff 3 maxDelay (1/2) ≤ maxDelay :=
  (ircNextBackoff_spec 3 (1/2) (by norm_num) (by norm_num [maxDelay])
    (by norm_num) (by norm_num)).2.2

/-- Does the event carry a server line that parses to command `433`
(nick collision)?  That is the only input-loop path touching
`connDelay` (`irc.go:183`). -/
def ircEventIs433 : IrcEvent → Bool
  | .serverLine line _ =>
      match ircParseLine line with
      | some (_, command, _) => command = "433"
      | none => false
  | _ => false

/-- No input-loop step other than a 433 line changes `connDelay`. -/
lemma ircInputStep_connDelay (cfg : ServerConfig) (st : IrcState)
    (ev : IrcEvent) (h : ircEventIs433 ev = false) :
    (ircInputStep cfg st ev).1.connDelay = st.connDelay := by
  cases ev with
  | outbound msg sendOk =>
      simp only [ircInputStep]
      split <;> rfl
  | chanClosed => rfl
  | serverLine line f =>
      simp only [ircInputStep]
      rcases hp : ircParseLine line with _ | ⟨pfx, command, params⟩
      · rfl
      · simp only [ircEventIs433, hp, decide_eq_false_iff_not] at h
        dsimp only
        split_ifs <;> rfl

/-- Running a session whose events contain no 433 leaves `connDelay`
untouched. -/
lemma ircRunSession_connDelay (cfg : ServerConfig) (evs : List IrcEvent) :
    ∀ st : IrcState, (∀ ev ∈ evs, ircEventIs433 ev = false) →
      (ircRunSession cfg st evs).connDelay = st.connDelay := by
  induction evs with
  | nil => intro st _; rfl
  | cons ev rest ih =>
      intro st h
      have hcd : (ircInputStep cfg st ev).1.connDelay = st.connDelay :=
        ircInputStep_connDelay cfg st ev (h ev (List.mem_cons_self ev rest))
      rcases hstep : ircInputStep cfg st ev with ⟨st2, outs, b⟩
      rw [hstep] at hcd
      cases b with
      | true => simp only [ircRunSession, hstep]; exact hcd
      | false =>
          simp only [ircRunSession, hstep]
          rw [ih st2 (fun e he => h e (List.mem_cons_of_mem ev he)), hcd]

/-- Configuration used for concrete counterexamples. -/
def cfgEx : ServerConfig := ⟨"irc.example.com:6667", "bot", "#sensors"⟩

/-- C2 (counterexample): in the execution whose first connection attempt
fails the dial (delay 3s → 4.5s) and whose second attempt connects but
fails the `NICK` registration send, the delay is reset to the 3s seed at
`irc.go:86` even though that attempt never reaches the joined state. -/
theorem backoff_reset_cex :
    (ircIterate cfgEx 3 (.dialFail 0)).connDelay = 9/2 ∧
    (9 / 2 : ℚ) ≠ baseDelay ∧
    (ircIterate cfgEx (9/2) .regSendFail).connDelay = baseDelay ∧
    (ircIterate cfgEx (9/2) .regSendFail).joined = false := by
  refine ⟨?_, by norm_num [baseDelay], rfl, rfl⟩
  show ircNextBackoff 3 maxDelay 0 = 9/2
  norm_num [ircNextBackoff, maxDelay]

/-- C2 (amended): the backoff delay is reset to the seed on every
successful transport connect (`net.Dial` success, `irc.go:86`), before
registration or join — reaching the joined state is not required.  It
stays at the seed through any session that receives no 433, and it is
never reset (it strictly exceeds the seed) after a failed dial. -/
theorem backoff_reset_on_connect (cfg : ServerConfig) (d f : ℚ)
    (evs : List IrcEvent) (hd : baseDelay ≤ d) (hf0 : 0 ≤ f)
    (h433 : ∀ ev ∈ evs, ircEventIs433 ev = false) :
    (ircIterate cfg d .regSendFail).connDelay = baseDelay ∧
    (ircIterate cfg d .regSendFail).joined = false ∧
    (ircIterate cfg d (.session evs)).connDelay = baseDelay ∧
    baseDelay < (ircIterate cfg d (.dialFail f)).connDelay := by
  refine ⟨rfl, rfl, ?_, ?_⟩
  · exact ircRunSession_connDelay cfg evs ⟨baseDelay, false, false⟩ h433
  · show baseDelay < ircNextBackoff d maxDelay f
    have hb : (baseDelay : ℚ) = 3 := rfl
    have hm : (maxDelay : ℚ) = 600 := rfl
    simp only [ircNextBackoff]
    split <;> nlinarith [hd, hf0]

/-- Witness for C2 (amended) at the counterexample configuration. -/
theorem backoff_reset_on_connect_witness :
    (ircIterate cfgEx 3 (.session [])).connDelay = baseDelay ∧
    baseDelay < (ircIterate cfgEx 3 (.dialFail 0)).connDelay :=
  ⟨(backoff_reset_on_connect cfgEx 3 0 [] (le_refl _) (le_refl _)
      (by simp)).2.2.1,
   (backoff_reset_on_connect cfgEx 3 0 [] (le_refl _) (le_refl _)
      (by simp)).2.2.2⟩

/-- C8: in the connected input loop, a message from the outbound channel
produces a transport write — exactly the `TOPIC <channel> :<msg>` command
— if and only if both `registered` and `joined` are true at that moment;
otherwise it is discarded with no write and no state change.  In either
case the session flags and delay are unchanged. -/
theorem topic_send_iff_ready (cfg : ServerConfig) (st : IrcState)
    (msg : String) (sendOk : Bool) :
    ((ircInputStep cfg st (.outbound msg sendOk)).1 = st) ∧
    ((ircInputStep cfg st (.outbound msg sendOk)).2.1 ≠ [] ↔
        st.registered = true ∧ st.joined = true) ∧
    (st.registered = true ∧ st.joined = true →
        (ircInputStep cfg st (.outbound msg sendOk)).2.1 =
          ["TOPIC " ++ cfg.Channel ++ " :" ++ msg]) ∧
    (st.registered = false ∨ st.joined = false →
        ircInputStep cfg st (.outbound msg sendOk) = (st, [], false)) := by
  by_cases hr : st.registered <;> by_cases hj : st.joined <;>
    simp [ircInputStep, hr, hj]

/-- Witness for C8: ready and non-ready sessions at delay 3. -/
theorem topic_send_iff_ready_witness :
    (ircInputStep cfgEx ⟨3, true, true⟩ (.outbound "hi" true)).2.1 =
      ["TOPIC " ++ cfgEx.Channel ++ " :" ++ "hi"] ∧
    ircInputStep cfgEx ⟨3, true, false⟩ (.outbound "hi" true) =
      (⟨3, true, false⟩, [], false) :=
  ⟨(topic_send_iff_ready cfgEx ⟨3, true, true⟩ "hi" true).2.2.1
      ⟨rfl, rfl⟩,
   (topic_send_iff_ready cfgEx ⟨3, true, false⟩ "hi" true).2.2.2
      (Or.inr rfl)⟩

/-! ## Sensor line parsing and the pipeline loop (`main.go`) -/

/-- Scanner state for the mantissa loop of Go's
`strconv.ParseFloat` (`readFloat`). -/
structure MantScan where
  digits : List ℕ
  fracLen : ℕ
  sawdot : Bool
  sawdigits : Bool
  und : Bool
deriving Repr

/-- The mantissa loop of `strconv.readFloat`: consume digits, at most one
dot, and underscore characters; stop at anything else (including a second
dot). -/
def scanMantissa : List Char → MantScan → MantScan × List Char
  | [], st => (st, [])
  | c :: rest, st =>
      if c = '_' then scanMantissa rest { st with und := true }
      else if c = '.' then
        if st.sawdot then (st, c :: rest)
        else scanMantissa rest { st with sawdot := true }
      else if c.isDigit then
        scanMantissa rest
          { st with digits := st.digits ++ [c.toNat - '0'.toNat],
                    sawdigits := true,
                    fracLen :=
                      if st.sawdot then st.fracLen + 1 else st.fracLen }
      else (st, c :: rest)

/-- The exponent-digit loop of `strconv.readFloat`: digits and
underscores (Go clamps the running exponent at 10000; irrelevant here
since the value is kept exact). -/
def scanExpDigits : List Char → ℕ × Bool → (ℕ × Bool) × List Char
  | [], acc => (acc, [])
  | c :: rest, (e, u) =>
      if c = '_' then scanExpDigits rest (e, true)
      else if c.isDigit then
        scanExpDigits rest (e * 10 + (c.toNat - '0'.toNat), u)
      else ((e, u), c :: rest)

/-- Walk of `strconv.underscoreOK`: the marker records whether the last
interesting character was the start, a digit, an underscore, or other. -/
def underscoreOKAux : List Char → Char → Bool
  | [], saw => saw ≠ '_'
  | c :: rest, saw =>
      if c.isDigit then underscoreOKAux rest '0'
      else if c = '_' then saw = '0' && underscoreOKAux rest '_'
      else saw ≠ '_' && underscoreOKAux rest '!'

/-- `strconv.underscoreOK`: underscores may only sit between digits (sign
skipped first; the hex-prefix special case is not modelled). -/
def underscoreOK (cs : List Char) : Bool :=
  underscoreOKAux
    (match cs with
     | '+' :: t => t
     | '-' :: t => t
     | t => t) '^'

/-- Decimal digit list to a natural number. -/
def natFromDigits (ds : List ℕ) : ℕ :=
  ds.foldl (fun a d => a * 10 + d) 0

/-- Exact value of a parsed decimal float: sign, digit string, number of
digits after the dot, exponent. -/
def goFloatVal (neg : Bool) (ds : List ℕ) (fracLen : ℕ) (e : ℤ) : ℚ :=
  let m : ℚ := natFromDigits ds
  (if neg then -m else m) * (10 : ℚ) ^ (e - fracLen)

/-- Model of `strconv.ParseFloat(s, 64)` as used at `main.go:226` and
`main.go:231`: `some` exactly when the whole string is a syntactically
valid decimal floating-point number (optional sign, digits with at most
one dot and at least one digit, optional `e`/`E` exponent with optional
sign and at least one digit, underscores only between digits), with its
exact rational value.  Not modelled: hexadecimal floats (`0x…p…`), the
`Inf`/`Infinity`/`NaN` spellings (non-finite values lie outside the
rational model), rounding to the nearest `float64`, and the range errors
Go reports for values overflowing or underflowing `float64`. -/
def goParseFloat (s : String) : Option ℚ :=
  match s.data with
  | [] => none
  | _ :: _ =>
    let (neg, cs1) :=
      match s.data with
      | '+' :: t => (false, t)
      | '-' :: t => (true, t)
      | t => (false, t)
    let (mst, cs2) := scanMantissa cs1 ⟨[], 0, false, false, false⟩
    if !mst.sawdigits then none
    else
      match cs2 with
      | [] =>
          if mst.und && !underscoreOK s.data then none
          else some (goFloatVal neg mst.digits mst.fracLen 0)
      | c :: cs3 =>
          if c = 'e' ∨ c = 'E' then
            let (eneg, cs4) :=
              match cs3 with
              | '+' :: t => (false, t)
              | '-' :: t => (true, t)
              | t => (false, t)
            match cs4 with
            | [] => none
            | d0 :: _ =>
                if !d0.isDigit then none
                else
                  let ((e, u2), cs5) := scanExpDigits cs4 (0, false)
                  if !cs5.isEmpty then none
                  else if (mst.und || u2) && !underscoreOK s.data then none
                  else
                    some (goFloatVal neg mst.digits mst.fracLen
                      (if eneg then -(e : ℤ) else (e : ℤ)))
          else none

example : goParseFloat "3.80" = some (19/5) := by
  simp [goParseFloat, scanMantissa, goFloatVal, natFromDigits]
  try norm_num

example : goParseFloat "63" = some 63 := by
  simp [goParseFloat, scanMantissa, goFloatVal, natFromDigits]
  try norm_num

example : goParseFloat "-14.0" = some (-14) := by
  simp [goParseFloat, scanMantissa, goFloatVal, natFromDigits]
  try norm_num

example : goParseFloat "bad" = none := by decide

example : goParseFloat "1.2.3" = none := by decide

example : goParseFloat "38734b3c" = none := by decide

/-- The eight capture groups of `sensorReportRE` (`main.go:18-26`). -/
structure SensorFields where
  tag : String
  rssi : String
  snr : String
  node : String
  seq : String
  battery : String
  temp : String
  okdup : String
deriving DecidableEq, Repr

/-- One `\s*([^,]+),` step of `sensorReportRE`: the field runs to the
first comma and must be non-empty; the greedy `\s*` swallows leading
whitespace except that at least one character must remain for the
capture. -/
def fieldSplit (cs : List Char) : Option (String × List Char) :=
  let pre := cs.takeWhile (fun c => c ≠ ',')
  match cs.drop pre.length with
  | ',' :: rest =>
      if pre.isEmpty then none
      else
        let k := min (pre.takeWhile goSpace).length (pre.length - 1)
        some (⟨pre.drop k⟩, rest)
  | _ => none

/-- The final `\s*([^,]+)` of `sensorReportRE`: as `fieldSplit` but with
no terminating comma required; trailing input beyond the capture is
ignored because the pattern is unanchored at the end. -/
def fieldLast (cs : List Char) : Option String :=
  let pre := cs.takeWhile (fun c => c ≠ ',')
  if pre.isEmpty then none
  else
    let k := min (pre.takeWhile goSpace).length (pre.length - 1)
    some ⟨pre.drop k⟩

/-- `sensorReportRE.FindStringSubmatch` (`main.go:18-26`, applied at
`main.go:212`): anchored at the start with tag alternation
`(ESPNOW|LORA):`, then seven comma-separated `([^,]+)` fields with `\s*`
between a comma and the next capture.  `none` is `matches == nil`. -/
def sensorReportMatch (line : String) : Option SensorFields := do
  let cs := line.data
  let (tag, r0) ←
    if ("ESPNOW:".data).isPrefixOf cs then some ("ESPNOW", cs.drop 7)
    else if ("LORA:".data).isPrefixOf cs then some ("LORA", cs.drop 5)
    else none
  let (rssi, r1) ← fieldSplit r0
  let (snr, r2) ← fieldSplit r1
  let (node, r3) ← fieldSplit r2
  let (seq, r4) ← fieldSplit r3
  let (battery, r5) ← fieldSplit r4
  let (temp, r6) ← fieldSplit r5
  let okdup ← fieldLast r6
  pure ⟨tag, rssi, snr, node, seq, battery, temp, okdup⟩

example :
    sensorReportMatch "LORA: -122, -14.0, 1, 38734ca6, 3.80, 63, DUP" =
      some ⟨"LORA", "-122", "-14.0", "1", "38734ca6", "3.80", "63",
        "DUP"⟩ := by decide

example : sensorReportMatch "LORA: -122, -14.0" = none := by decide

/-- The per-node history map `histories` (`main.go:29`, `main.go:238-242`);
a Go map under single-goroutine ownership, modelled as an association
list. -/
abbrev NodeHistories := List (String × ReportHistory)

/-- `histories[node] = h`: replace the node's entry or append a new
one. -/
def updateHistory : NodeHistories → String → ReportHistory →
    NodeHistories
  | [], node, h => [(node, h)]
  | (k, v) :: rest, node, h =>
      if k = node then (k, h) :: rest
      else (k, v) :: updateHistory rest node h

/-- `SensorData` (`logger.go:13-20`). -/
structure SensorData where
  Timestamp : ℤ
  RSSI : String
  SNR : String
  Node : String
  BatteryV : ℚ
  TempF : ℚ
deriving DecidableEq, Repr

/-- One of the two node slots of the IRC summary: the data that
`FormatReportSummary` (`main.go:114-135`) renders for a node, or the
`"/--/--"` placeholder.  The textual rendering (`%.0f` rounding and the
`Jan02 15:04` timestamp format) is not modelled; the summary is modelled
as the data it displays. -/
inductive NodeSlot where
  | noData
  | data (tempF batteryV minT maxT : ℚ) (node : String) (timestamp : ℤ)
deriving DecidableEq, Repr

/-- `FormatReportSummary` (`main.go:114-135`): one slot per node ID in
`["1", "2"]`, a placeholder when the node is absent or has an empty
report list, otherwise the last report plus the cached min/max. -/
def formatReportSummary (hs : NodeHistories) : List NodeSlot :=
  ["1", "2"].map fun nodeID =>
    match hs.lookup nodeID with
    | none => .noData
    | some h =>
        match h.Reports.getLast? with
        | none => .noData
        | some last =>
            .data last.TempF last.BatteryV h.MinTempF h.MaxTempF nodeID
              last.Timestamp

/-- Effects of one iteration of the pipeline loop: the histories map
afterwards, the summary sent on `reportChan` (if any), and the record
sent on `sensorLogChan` (if any). -/
structure PipeResult where
  histories : NodeHistories
  sent : Option (List NodeSlot)
  logged : Option SensorData
deriving DecidableEq, Repr

/-- One iteration of the `for report := range sensorChan` loop
(`main.go:209-261`): regex match, duplicate check on the eighth field,
battery and temperature float parses, history lookup-or-create plus
`Add`, then the summary send and the log send.  The `time.Now()` of
`main.go:245` and the `time.Now()` inside `Add` (`reports.go:35`) are
modelled as the same instant `now`. -/
def pipelineStep (histories : NodeHistories) (line : String) (now : ℤ) :
    PipeResult :=
  match sensorReportMatch line with
  | none => ⟨histories, none, none⟩
  | some m =>
      if m.okdup ≠ "OK" then ⟨histories, none, none⟩
      else
        match goParseFloat m.battery with
        | none => ⟨histories, none, none⟩
        | some batteryV =>
            match goParseFloat m.temp with
            | none => ⟨histories, none, none⟩
            | some tempF =>
                let h := (histories.lookup m.node).getD ⟨[], 0, 0⟩
                let h2 := h.Add now batteryV tempF now
                let hs2 := updateHistory histories m.node h2
                ⟨hs2, some (formatReportSummary hs2),
                 some ⟨now, m.rssi, m.snr, m.node, batteryV, tempF⟩⟩

/-- The accepted path of the pipeline loop: a line matching the grammar
with `"OK"` dup flag and parseable battery and temperature updates the
node's history and sends on both channels. -/
lemma pipelineStep_accept (hs : NodeHistories) (line : String) (now : ℤ)
    (m : SensorFields) (bv tf : ℚ)
    (hm : sensorReportMatch line = some m) (hok : m.okdup = "OK")
    (hb : goParseFloat m.battery = some bv)
    (ht : goParseFloat m.temp = some tf) :
    pipelineStep hs line now =
      ⟨updateHistory hs m.node
         (((hs.lookup m.node).getD ⟨[], 0, 0⟩).Add now bv tf now),
       some (formatReportSummary (updateHistory hs m.node
         (((hs.lookup m.node).getD ⟨[], 0, 0⟩).Add now bv tf now))),
       some ⟨now, m.rssi, m.snr, m.node, bv, tf⟩⟩ := by
  simp [pipelineStep, hm, hok, hb, ht]

/-- C3: a line whose eighth captured field is not the literal `"OK"`
leaves the node-history map untouched (no history created, no `Add`),
sends nothing on the IRC report channel and nothing on the sensor-log
channel; in particular, replaying a wire line with `DUP` set leaves every
node's history exactly as it was. -/
theorem dup_line_no_effect (hs : NodeHistories) (line : String)
    (now : ℤ) (m : SensorFields)
    (hm : sensorReportMatch line = some m) (hdup : m.okdup ≠ "OK") :
    pipelineStep hs line now = ⟨hs, none, none⟩ := by
  simp [pipelineStep, hm, hdup]

/-- The two example wire lines of `main.go:141-142`. -/
def loraLineEx : String :=
  "LORA: -122, -14.0, 1, 38734ca6, 3.80, 63, DUP"

def espLineEx : String :=
  "ESPNOW: -63, 0.0, 2, 38734b3c, 3.80, 64, OK"

/-- Capture groups of `loraLineEx` under `sensorReportRE`. -/
def loraFieldsEx : SensorFields :=
  ⟨"LORA", "-122", "-14.0", "1", "38734ca6", "3.80", "63", "DUP"⟩

/-- Capture groups of `espLineEx` under `sensorReportRE`. -/
def espFieldsEx : SensorFields :=
  ⟨"ESPNOW", "-63", "0.0", "2", "38734b3c", "3.80", "64", "OK"⟩

/-- A concrete non-empty history map for witnesses. -/
def histEx : NodeHistories := [("1", ⟨[⟨0, 63, 3⟩], 63, 63⟩)]

/-- Witness for C3: the `DUP` example line leaves a non-empty history map
unchanged, with no channel sends. -/
theorem dup_line_no_effect_witness :
    pipelineStep histEx loraLineEx 5 = ⟨histEx, none, none⟩ :=
  dup_line_no_effect histEx loraLineEx 5 loraFieldsEx (by decide)
    (by decide)

/-- C7: a line that fails the grammar, or matches but has a battery or
temperature field that does not parse as a float, is rejected without
mutating any node's history (no empty history is created) and without
sending on either channel; the step is a total function, so no panic is
possible. -/
theorem malformed_line_no_effect (hs : NodeHistories) (line : String)
    (now : ℤ)
    (h : sensorReportMatch line = none ∨
      ∃ m, sensorReportMatch line = some m ∧
        (goParseFloat m.battery = none ∨ goParseFloat m.temp = none)) :
    pipelineStep hs line now = ⟨hs, none, none⟩ := by
  rcases h with hnone | ⟨m, hm, hbad⟩
  · simp [pipelineStep, hnone]
  · by_cases hdup : m.okdup = "OK"
    · rcases hbad with hb | ht
      · simp [pipelineStep, hm, hdup, hb]
      · rcases hball : goParseFloat m.battery with _ | bv
        · simp [pipelineStep, hm, hdup, hball]
        · simp [pipelineStep, hm, hdup, hball, ht]
    · simp [pipelineStep, hm, hdup]

/-- Witness for C7: a no-match line and a matching line with a
non-numeric battery field both leave the map unchanged. -/
theorem malformed_line_no_effect_witness :
    pipelineStep histEx "garbage" 0 = ⟨histEx, none, none⟩ ∧
    pipelineStep histEx "LORA: 1, 2, 3, 4, x, 63, OK" 0 =
      ⟨histEx, none, none⟩ :=
  ⟨malformed_line_no_effect histEx "garbage" 0 (Or.inl (by decide)),
   malformed_line_no_effect histEx "LORA: 1, 2, 3, 4, x, 63, OK" 0
     (Or.inr ⟨⟨"LORA", "1", "2", "3", "4", "x", "63", "OK"⟩, by decide,
       Or.inl (by decide)⟩)⟩

/-- C6: the `LORA … DUP` example line matches the grammar with node
`"1"`, battery field parsing to 3.80, temperature field parsing to 63 and
the duplicate flag set, and the pipeline performs no history or log side
effect for it; the `ESPNOW … OK` example line matches with node `"2"`, is
accepted, and after processing it node `"2"`'s history holds a report
with `TempF = 64` (and the summary and log record are emitted). -/
theorem pipeline_examples :
    sensorReportMatch loraLineEx = some loraFieldsEx ∧
    loraFieldsEx.node = "1" ∧ loraFieldsEx.okdup ≠ "OK" ∧
    goParseFloat loraFieldsEx.battery = some (19/5) ∧
    goParseFloat loraFieldsEx.temp = some 63 ∧
    pipelineStep [] loraLineEx 0 = ⟨[], none, none⟩ ∧
    sensorReportMatch espLineEx = some espFieldsEx ∧
    espFieldsEx.node = "2" ∧ espFieldsEx.okdup = "OK" ∧
    pipelineStep [] espLineEx 0 =
      ⟨[("2", ⟨[⟨0, 64, 19/5⟩], 64, 64⟩)],
       some [.noData, .data 64 (19/5) 64 64 "2" 0],
       some ⟨0, "-63", "0.0", "2", 19/5, 64⟩⟩ := by
  have hb : goParseFloat "3.80" = some (19/5) := by
    simp [goParseFloat, scanMantissa, goFloatVal, natFromDigits]
    try norm_num
  have h63 : goParseFloat "63" = some 63 := by
    simp [goParseFloat, scanMantissa, goFloatVal, natFromDigits]
    try norm_num
  have h64 : goParseFloat "64" = some 64 := by
    simp [goParseFloat, scanMantissa, goFloatVal, natFromDigits]
    try norm_num
  have hmL : sensorReportMatch loraLineEx = some loraFieldsEx := by decide
  have hmE : sensorReportMatch espLineEx = some espFieldsEx := by decide
  have hAdd : ReportHistory.Add ⟨[], 0, 0⟩ 0 (19/5) 64 0 =
      ⟨[⟨0, 64, 19/5⟩], 64, 64⟩ := by
    simp [ReportHistory.Add, pruneReports, retentionWindow]
  refine ⟨hmL, rfl, by decide, hb, h63, ?_, hmE, rfl, rfl, ?_⟩
  · simp [pipelineStep, hmL, loraFieldsEx]
  · rw [pipelineStep_accept [] espLineEx 0 espFieldsEx (19/5) 64 hmE rfl
      hb h64]
    simp [espFieldsEx, updateHistory, formatReportSummary, hAdd,
      List.lookup]

/-! ## Serial device discovery (`logger.go` blob: `serialFindPort`,
`SerialConnect`) -/

/-- `path/filepath.Match` restricted to the constructs appearing in
`serialFindPort`'s patterns: literal characters and `*`, where `*`
matches any (possibly empty) run of non-separator (`/`) characters.
(`?`, character classes and escapes do not occur in the two fixed
patterns.)  A `*` consumes some prefix of non-`/` characters, i.e. leaves
one of the suffixes enumerated by `nonSepSuffixes`. -/
def nonSepSuffixes : List Char → List (List Char)
  | [] => [[]]
  | c :: rest =>
      (c :: rest) :: (if c = '/' then [] else nonSepSuffixes rest)

def goPathMatch : List Char → List Char → Bool
  | [], s => s.isEmpty
  | '*' :: ps2, s => (nonSepSuffixes s).any fun t => goPathMatch ps2 t
  | _ :: _, [] => false
  | p :: ps2, c :: rest => p = c && goPathMatch ps2 rest

example : goPathMatch "/dev/ttyACM*".data "/dev/ttyACM0".data = true := by
  decide

example : goPathMatch "/dev/ttyACM*".data "/dev/other".data = false := by
  decide

/-- The fixed glob patterns of `serialFindPort`
(`logger.go` blob, `patterns := …`). -/
def serialPatterns : List String := ["/dev/ttyACM*", "/dev/cu.usbmodem*"]

/-- The `possibles` slice accumulated over both patterns; `files` stands
for the device paths present on the filesystem (`filepath.Glob` returns
the existing paths matching a pattern; its sorting of each pattern's
matches does not affect the count or the unique element). -/
def serialCandidates (files : List String) : List String :=
  serialPatterns.foldl
    (fun acc p => acc ++ files.filter (fun f => goPathMatch p.data f.data))
    []

/-- `serialFindPort`: error on zero or several candidates, the unique
path otherwise.  (The glob error branch is unreachable: both fixed
patterns are well-formed.) -/
def serialFindPort (files : List String) : Except String String :=
  match serialCandidates files with
  | [] => .error "no serial port found"
  | [p] => .ok p
  | _ => .error "too many serial ports"

/-- What one iteration of the `SerialConnect` loop does next. -/
inductive SerialAction where
  | retryAfterSleep (seconds : ℕ)
  | monitor (port : String)
deriving DecidableEq, Repr

/-- The discovery step of the `SerialConnect` loop: on a discovery error,
sleep 1 second and retry (`time.Sleep(time.Second); continue`); on
success, proceed to monitor the found port. -/
def serialConnectStep (files : List String) : SerialAction :=
  match serialFindPort files with
  | .error _ => .retryAfterSleep 1
  | .ok port => .monitor port

/-- C9: `serialFindPort` returns a path exactly when the combined glob
patterns match exactly one candidate, and then it returns that unique
candidate; on any error return the `SerialConnect` loop sleeps for the
fixed 1-second delay and retries discovery instead of terminating. -/
theorem serialFindPort_spec (files : List String) :
    ((∃ p, serialFindPort files = .ok p) ↔
        (serialCandidates files).length = 1) ∧
    (∀ p, serialCandidates files = [p] → serialFindPort files = .ok p) ∧
    (∀ e, serialFindPort files = .error e →
        serialConnectStep files = .retryAfterSleep 1) := by
  rcases hc : serialCandidates files with _ | ⟨a, _ | ⟨b, t⟩⟩ <;>
    simp [serialFindPort, serialConnectStep, hc]

/-- Witness for C9: a unique match is returned; an empty device list
leads to the 1-second retry. -/
theorem serialFindPort_spec_witness :
    serialFindPort ["/dev/ttyACM0", "/dev/other"] = .ok "/dev/ttyACM0" ∧
    serialConnectStep [] = .retryAfterSleep 1 :=
  ⟨(serialFindPort_spec ["/dev/ttyACM0", "/dev/other"]).2.1 "/dev/ttyACM0"
     rfl,
   (serialFindPort_spec []).2.2 "no serial port found" rfl⟩
